import Mathlib

/-!
Verification of the data-parsing and training-configuration logic of the
droughtwatch training script (train.py).

The script decodes serialized raster records (11 spectral band payloads plus
one integer label), slices each selected band payload to a 65 x 65 grid of
unsigned 8-bit samples, stacks the selected bands along the channel axis,
one-hot encodes the label, and configures a Keras training run.

The shallow embedding below translates the relevant functions of train.py
into executable Lean definitions: byte payloads become lists of naturals
(each intended to lie in [0, 255]), tensors become nested lists, the record
schema becomes an explicit key/type list, and the Keras model construction
becomes a descriptor value recording layers, loss, optimizer and metrics.
Fallible steps (a band key absent from the schema) return Option.
-/

namespace Droughtwatch

/-- NUM_CLASSES from train.py line 24: four classes (0, 1, 2, or 3+ cows). -/
def NUM_CLASSES : ℕ := 4

/-- NUM_TRAIN from train.py line 26: fixed number of training examples. -/
def NUM_TRAIN : ℕ := 86317

/-- NUM_VAL from train.py line 27: fixed number of validation examples. -/
def NUM_VAL : ℕ := 10778

/-- IMG_DIM from train.py line 30: images are 65 x 65 squares. -/
def IMG_DIM : ℕ := 65

/-- NUM_BANDS from train.py line 32. -/
def NUM_BANDS : ℕ := 7

/-- BATCH_SIZE default from train.py line 38. -/
def BATCH_SIZE : ℕ := 64

/-- Field types appearing in the TFRecord feature specification:
byte-string fields (tf.string) and 64-bit integer fields (tf.int64). -/
inductive FType where
  | str : FType
  | int64 : FType
deriving DecidableEq

/-- The TFRecord data field specification from train.py lines 95-108:
eleven band fields B1..B11 of type tf.string and one label field of
type tf.int64, in source order. -/
def features : List (String × FType) :=
  [("B1", FType.str), ("B2", FType.str), ("B3", FType.str), ("B4", FType.str),
   ("B5", FType.str), ("B6", FType.str), ("B7", FType.str), ("B8", FType.str),
   ("B9", FType.str), ("B10", FType.str), ("B11", FType.str),
   ("label", FType.int64)]

/-- Recognizer for band fields of the schema (fields of string type). -/
def isBandField (kv : String × FType) : Bool :=
  match kv.2 with
  | FType.str => true
  | FType.int64 => false

/-- Recognizer for integer label fields of the schema. -/
def isLabelField (kv : String × FType) : Bool :=
  match kv.2 with
  | FType.str => false
  | FType.int64 => true

/-- One deserialized raster record: eleven raw band payloads (byte buffers,
modelled as lists of naturals in [0, 255]) and the stored int64 label. -/
structure RasterRecord where
  B1 : List ℕ
  B2 : List ℕ
  B3 : List ℕ
  B4 : List ℕ
  B5 : List ℕ
  B6 : List ℕ
  B7 : List ℕ
  B8 : List ℕ
  B9 : List ℕ
  B10 : List ℕ
  B11 : List ℕ
  label : ℤ

/-- Lookup of a band payload by key in a parsed example, as performed by
tf.parse_single_example followed by example[key] in train.py line 113/119.
A key that is not a band field of the schema yields none (a KeyError). -/
def parseBands (rec : RasterRecord) : String → Option (List ℕ)
  | "B1" => some rec.B1
  | "B2" => some rec.B2
  | "B3" => some rec.B3
  | "B4" => some rec.B4
  | "B5" => some rec.B5
  | "B6" => some rec.B6
  | "B7" => some rec.B7
  | "B8" => some rec.B8
  | "B9" => some rec.B9
  | "B10" => some rec.B10
  | "B11" => some rec.B11
  | _ => none

/-- getband from train.py lines 115-117: decode the raw byte string as
unsigned 8-bit samples, keep the first IMG_DIM^2 samples, and reshape them
into an (IMG_DIM, IMG_DIM, 1) grid.  Cell (r, c) holds the sample at flat
index r * IMG_DIM + c of the truncated payload. -/
def getband (payload : List ℕ) : List (List (List ℕ)) :=
  (List.range IMG_DIM).map (fun r =>
    (List.range IMG_DIM).map (fun c =>
      [(payload.take (IMG_DIM ^ 2)).getD (r * IMG_DIM + c) 0]))

/-- The default keylist of the _parse_ function, train.py line 112. -/
def keylist : List String := ["B2", "B3", "B4", "B5", "B6", "B7", "B8"]

/-- tf.concat(bandlist, -1) from train.py line 122: concatenate the
single-channel grids along the last (channel) axis, so cell (r, c) of the
result is the concatenation of the per-band cells at (r, c). -/
def concatChannels (bands : List (List (List (List ℕ)))) : List (List (List ℕ)) :=
  (List.range IMG_DIM).map (fun r =>
    (List.range IMG_DIM).map (fun c =>
      (bands.map (fun b => (b.getD r []).getD c [])).flatten))

/-- tf.cast(x, tf.int32) on an int64 value, train.py line 124: two's
complement truncation of the integer to 32 bits. -/
def toInt32 (x : ℤ) : ℤ := (x + 2 ^ 31) % 2 ^ 32 - 2 ^ 31

/-- tf.one_hot(label, n) from train.py line 125, on a scalar index: a vector
of n entries whose j-th entry is 1 when j equals the index and 0 otherwise.
Per the TensorFlow contract an out-of-range index yields all zeros, not an
error. -/
def one_hot (i : ℤ) (n : ℕ) : List ℚ :=
  (List.range n).map (fun j : ℕ => if (j : ℤ) = i then 1 else 0)

/-- The label processing of _parse_, train.py lines 124-125: cast the stored
int64 label to int32, then one-hot encode over NUM_CLASSES classes. -/
def encodeLabel (label : ℤ) : List ℚ :=
  one_hot (toInt32 label) NUM_CLASSES

/-- The per-record output of _parse_: the stacked image tensor (the value of
the fixed key "image") and the one-hot label vector. -/
structure ParsedExample where
  image : List (List (List ℕ))
  label : List ℚ
deriving DecidableEq

/-- The _parse_ function of train.py lines 112-126 for a given key list:
look up each requested band payload (none if a key is absent from the
schema), decode each payload with getband, concatenate the grids along the
channel axis, and pair the result with the one-hot encoded label. -/
def parseExample (rec : RasterRecord) (keys : List String) : Option ParsedExample :=
  (keys.mapM (parseBands rec)).map (fun payloads =>
    { image := concatChannels (payloads.map getband)
      label := encodeLabel rec.label })

/-- np.zeros((r, c)): an r x c matrix of zeros, as a list of rows. -/
def zerosMatrix (r c : ℕ) : List (List ℚ) :=
  List.replicate r (List.replicate c 0)

/-- The numpy column update m[:, j] += v from train.py lines 58-61: add v to
entry j of every row. -/
def addToColumn (m : List (List ℚ)) (j : ℕ) (v : ℚ) : List (List ℚ) :=
  m.map (fun row => row.set j (row.getD j 0 + v))

/-- class_weights_matrix from train.py lines 50-62, with the module-level
constants NUM_TRAIN and NUM_CLASSES it reads made explicit parameters:
start from a zero matrix of shape (numTrain, numClasses) and add the fixed
per-class weights 1.0, 4.0, 4.0, 6.0 to columns 0, 1, 2, 3. -/
def class_weights_matrix (numTrain numClasses : ℕ) : List (List ℚ) :=
  addToColumn (addToColumn (addToColumn (addToColumn
    (zerosMatrix numTrain numClasses) 0 1) 1 4) 2 4) 3 6

/-- Steps per epoch from train.py lines 207-208:
int(math.floor(float(count) / float(batch))).  The float64 division is exact
for the constants used there (86317/64 and 10778/64 have power-of-two
denominators), so the computation is modelled as the floor of the exact
rational quotient. -/
def steps_per_epoch (count batch : ℕ) : ℤ :=
  ⌊(count : ℚ) / (batch : ℚ)⌋

/-- Activation functions named in the model builders. -/
inductive Activation where
  | relu : Activation
  | sigmoid : Activation
  | softmax : Activation
deriving DecidableEq

/-- Loss functions named in the model builders. -/
inductive Loss where
  | meanSquaredError : Loss
  | categoricalCrossentropy : Loss
deriving DecidableEq

/-- Metrics named in the model builders. -/
inductive Metric where
  | mse : Metric
  | accuracy : Metric
deriving DecidableEq

/-- Descriptor of one Keras layer as added by the model builders. -/
inductive LayerSpec where
  | inputLayer (shape : List ℕ) : LayerSpec
  | conv2d (filters : ℕ) (kernel : ℕ × ℕ) (activation : Activation) : LayerSpec
  | maxPooling2d (pool : ℕ × ℕ) : LayerSpec
  | flatten : LayerSpec
  | dense (units : ℕ) (activation : Option Activation) : LayerSpec
  | dropout (rate : ℚ) : LayerSpec
deriving DecidableEq

/-- Descriptor of a compiled optimizer: its Keras class name and the
learning rate it was constructed with (none means the library default). -/
structure OptimizerSpec where
  name : String
  lr : Option ℚ
deriving DecidableEq

/-- load_optimizer from train.py lines 88-92: dynamically load the optimizer
class named by the string and instantiate it with the given learning rate. -/
def load_optimizer (optimizer : String) (learning_rate : ℚ) : OptimizerSpec :=
  { name := optimizer, lr := some learning_rate }

/-- tf.keras.optimizers.Adam() with no arguments, train.py line 147: the
Adam optimizer at its library-default learning rate. -/
def adamDefault : OptimizerSpec :=
  { name := "Adam", lr := none }

/-- The hyperparameter configuration assembled by the argument parser,
train.py lines 217-295. -/
structure HyperArgs where
  model_name : String
  data_path : String
  batch_size : ℕ
  epochs : ℕ
  l1_size : ℕ
  l2_size : ℕ
  l3_size : ℕ
  fc1_size : ℕ
  fc2_size : ℕ
  dropout_1 : ℚ
  dropout_2 : ℚ
  optimizer : String
  learning_rate : ℚ

/-- Descriptor of a compiled Keras model: the layer stack in order of
addition, plus the compile arguments. -/
structure CompiledModel where
  layers : List LayerSpec
  loss : Loss
  optimizer : OptimizerSpec
  metrics : List Metric
deriving DecidableEq

/-- build_regression_model from train.py lines 134-149: the two-block
convolutional regression network, compiled with mean squared error and the
no-argument Adam optimizer. -/
def build_regression_model (args : HyperArgs) : CompiledModel :=
  { layers :=
      [LayerSpec.inputLayer [IMG_DIM, IMG_DIM, NUM_BANDS],
       LayerSpec.conv2d args.l1_size (5, 5) Activation.relu,
       LayerSpec.maxPooling2d (2, 2),
       LayerSpec.conv2d args.l2_size (3, 3) Activation.relu,
       LayerSpec.maxPooling2d (2, 2),
       LayerSpec.flatten,
       LayerSpec.dense args.fc1_size (some Activation.relu),
       LayerSpec.dense 1 (some Activation.sigmoid)]
    loss := Loss.meanSquaredError
    optimizer := adamDefault
    metrics := [Metric.mse] }

/-- build_classification_model from train.py lines 151-177: the three-block
convolutional classifier, compiled with categorical crossentropy and the
optimizer loaded from the configured name and learning rate. -/
def build_classification_model (args : HyperArgs) : CompiledModel :=
  { layers :=
      [LayerSpec.inputLayer [IMG_DIM, IMG_DIM, NUM_BANDS],
       LayerSpec.conv2d args.l1_size (3, 3) Activation.relu,
       LayerSpec.maxPooling2d (2, 2),
       LayerSpec.conv2d args.l2_size (3, 3) Activation.relu,
       LayerSpec.conv2d args.l2_size (3, 3) Activation.relu,
       LayerSpec.maxPooling2d (2, 2),
       LayerSpec.dropout args.dropout_1,
       LayerSpec.conv2d args.l3_size (3, 3) Activation.relu,
       LayerSpec.conv2d args.l3_size (3, 3) Activation.relu,
       LayerSpec.maxPooling2d (2, 2),
       LayerSpec.dropout args.dropout_2,
       LayerSpec.flatten,
       LayerSpec.dense args.fc1_size (some Activation.relu),
       LayerSpec.dense args.fc2_size (some Activation.relu),
       LayerSpec.dense NUM_CLASSES (some Activation.softmax)]
    loss := Loss.categoricalCrossentropy
    optimizer := load_optimizer args.optimizer args.learning_rate
    metrics := [Metric.accuracy] }

/-- A band payload satisfying the data contract: at least IMG_DIM^2 decoded
bytes, every byte in [0, 255]. -/
def validPayload (p : List ℕ) : Prop :=
  IMG_DIM ^ 2 ≤ p.length ∧ ∀ b ∈ p, b ≤ 255

/-- A raster record satisfying the data contract on every band payload. -/
def validRecord (rec : RasterRecord) : Prop :=
  validPayload rec.B1 ∧ validPayload rec.B2 ∧ validPayload rec.B3 ∧
  validPayload rec.B4 ∧ validPayload rec.B5 ∧ validPayload rec.B6 ∧
  validPayload rec.B7 ∧ validPayload rec.B8 ∧ validPayload rec.B9 ∧
  validPayload rec.B10 ∧ validPayload rec.B11

/-- A concrete in-contract payload: IMG_DIM^2 bytes, all equal to 3. -/
def sampleP : List ℕ := List.replicate (IMG_DIM ^ 2) 3

/-- A concrete in-contract raster record with label 1. -/
def sampleRecord : RasterRecord :=
  { B1 := sampleP, B2 := sampleP, B3 := sampleP, B4 := sampleP,
    B5 := sampleP, B6 := sampleP, B7 := sampleP, B8 := sampleP,
    B9 := sampleP, B10 := sampleP, B11 := sampleP, label := 1 }

/-- Default key used only to totalize list indexing in statements. -/
def defaultKey : String := ""

/-! Helper lemmas about list indexing and the decoded grids. -/

lemma getD_range_map {α : Type} (f : ℕ → α) (n i : ℕ) (d : α) (h : i < n) :
    ((List.range n).map f).getD i d = f i := by
  rw [List.getD_eq_getElem?_getD, List.getElem?_map, List.getElem?_range h]
  rfl

lemma getD_map_lt {α β : Type} (f : α → β) (l : List α) (i : ℕ) (d : β) (d0 : α)
    (h : i < l.length) :
    (l.map f).getD i d = f (l.getD i d0) := by
  rw [List.getD_eq_getElem?_getD, List.getElem?_map, List.getD_eq_getElem?_getD,
    List.getElem?_eq_getElem h]
  rfl

lemma getD_take_lt (l : List ℕ) (n i : ℕ) (d : ℕ) (h : i < n) :
    (l.take n).getD i d = l.getD i d := by
  rw [List.getD_eq_getElem?_getD, List.getD_eq_getElem?_getD, List.getElem?_take, if_pos h]

lemma flatten_map_singleton {α β : Type} (f : α → β) (l : List α) :
    (l.map (fun x => [f x])).flatten = l.map f := by
  induction l with
  | nil => rfl
  | cons a t ih => simp [ih]

lemma length_flatten_of_singletons {α : Type} (L : List (List α))
    (h : ∀ x ∈ L, x.length = 1) : L.flatten.length = L.length := by
  induction L with
  | nil => rfl
  | cons a t ih =>
    simp only [List.flatten_cons, List.length_append, List.length_cons]
    have ha := h a (by simp)
    have ht := ih (fun x hx => h x (List.mem_cons_of_mem a hx))
    omega

/-- Cell (r, c) of a decoded band grid is the sample at flat index
r * IMG_DIM + c of the truncated payload. -/
lemma getband_cell (p : List ℕ) (r c : ℕ) (hr : r < IMG_DIM) (hc : c < IMG_DIM) :
    ((getband p).getD r []).getD c [] =
      [(p.take (IMG_DIM ^ 2)).getD (r * IMG_DIM + c) 0] := by
  unfold getband
  rw [getD_range_map _ _ _ _ hr, getD_range_map _ _ _ _ hc]

/-- Cell (r, c) of the channel concatenation of decoded bands lists the
per-band samples at flat index r * IMG_DIM + c, in band order. -/
lemma concatChannels_cell (payloads : List (List ℕ)) (r c : ℕ)
    (hr : r < IMG_DIM) (hc : c < IMG_DIM) :
    ((concatChannels (payloads.map getband)).getD r []).getD c [] =
      payloads.map (fun p => (p.take (IMG_DIM ^ 2)).getD (r * IMG_DIM + c) 0) := by
  unfold concatChannels
  rw [getD_range_map _ _ _ _ hr, getD_range_map _ _ _ _ hc, List.map_map]
  have h : (fun b => (b.getD r []).getD c []) ∘ getband =
      fun p => [(p.take (IMG_DIM ^ 2)).getD (r * IMG_DIM + c) 0] := by
    funext p
    exact getband_cell p r c hr hc
  rw [h, flatten_map_singleton]

/-- Shape of the channel concatenation: IMG_DIM rows of IMG_DIM cells, each
cell holding one entry per band. -/
lemma concatChannels_shape (bands : List (List (List (List ℕ))))
    (hb : ∀ b ∈ bands, ∀ r ∈ List.range IMG_DIM, ∀ c ∈ List.range IMG_DIM,
      ((b.getD r []).getD c []).length = 1) :
    (concatChannels bands).length = IMG_DIM ∧
    ∀ row ∈ concatChannels bands, row.length = IMG_DIM ∧
      ∀ cell ∈ row, cell.length = bands.length := by
  refine ⟨by simp [concatChannels], ?_⟩
  intro row hrow
  rcases List.mem_map.mp hrow with ⟨r, hr, hrw⟩
  subst hrw
  refine ⟨by simp, ?_⟩
  intro cell hcell
  rcases List.mem_map.mp hcell with ⟨c, hc, hcw⟩
  subst hcw
  have h : ∀ x ∈ bands.map (fun b => (b.getD r []).getD c []), x.length = 1 := by
    intro x hx
    rcases List.mem_map.mp hx with ⟨b, hb2, hbw⟩
    subst hbw
    exact hb b hb2 r hr c hc
  rw [length_flatten_of_singletons _ h, List.length_map]

/-- mapM over Option succeeds exactly elementwise; lengths agree and the
i-th result is the image of the i-th input. -/
lemma mapM_option_spec (f : String → Option (List ℕ)) :
    ∀ (l : List String) (res : List (List ℕ)), l.mapM f = some res →
      res.length = l.length ∧
      ∀ i, i < l.length → f (l.getD i defaultKey) = some (res.getD i []) := by
  intro l
  induction l with
  | nil =>
    intro res h
    simp only [List.mapM_nil, Option.pure_def, Option.some.injEq] at h
    subst h
    exact ⟨rfl, fun i hi => absurd hi (by simp)⟩
  | cons a t ih =>
    intro res h
    rw [List.mapM_cons] at h
    cases ha : f a with
    | none => rw [ha] at h; simp at h
    | some b =>
      rw [ha] at h
      cases ht : t.mapM f with
      | none => rw [ht] at h; simp at h
      | some bs =>
        rw [ht] at h
        simp only [Option.bind_some, Option.pure_def, Option.bind_eq_bind,
          Option.some_bind, Option.some.injEq] at h
        subst h
        rcases ih bs ht with ⟨hlen, hget⟩
        refine ⟨by simp [hlen], ?_⟩
        intro i hi
        cases i with
        | zero => simpa using ha
        | succ j =>
          simp only [List.getD_cons_succ]
          exact hget j (by simpa using hi)

lemma getD_mem_of_lt {α : Type} (l : List α) (i : ℕ) (d : α) (h : i < l.length) :
    l.getD i d ∈ l := by
  rw [List.getD_eq_getElem?_getD, List.getElem?_eq_getElem h]
  simp

lemma sampleP_valid : validPayload sampleP := by
  constructor
  · simp [sampleP]
  · intro b hb
    rw [List.eq_of_mem_replicate hb]
    norm_num

lemma sampleRecord_valid : validRecord sampleRecord :=
  ⟨sampleP_valid, sampleP_valid, sampleP_valid, sampleP_valid, sampleP_valid,
   sampleP_valid, sampleP_valid, sampleP_valid, sampleP_valid, sampleP_valid,
   sampleP_valid⟩

lemma index_lt_sq (r c : ℕ) (hr : r < IMG_DIM) (hc : c < IMG_DIM) :
    r * IMG_DIM + c < IMG_DIM ^ 2 := by
  simp only [IMG_DIM] at hr hc ⊢
  omega

/-- C1: for a requested band whose payload decodes to at least IMG_DIM^2 = 4225
unsigned 8-bit samples, getband keeps exactly the first IMG_DIM^2 samples
(trailing bytes are ignored) and returns a grid of shape (65, 65, 1) whose
cell (r, c) is the payload byte at flat index r * 65 + c, with every value
in [0, 255]. -/
theorem C1_getband_shape_and_range (payload : List ℕ)
    (hlen : IMG_DIM ^ 2 ≤ payload.length)
    (hval : ∀ b ∈ payload, b ≤ 255) :
    (getband payload).length = IMG_DIM ∧
    (∀ row ∈ getband payload, row.length = IMG_DIM ∧ ∀ cell ∈ row, cell.length = 1) ∧
    getband payload = getband (payload.take (IMG_DIM ^ 2)) ∧
    (∀ r c : ℕ, r < IMG_DIM → c < IMG_DIM →
      ((getband payload).getD r []).getD c [] = [payload.getD (r * IMG_DIM + c) 0]) ∧
    (∀ row ∈ getband payload, ∀ cell ∈ row, ∀ v ∈ cell, v ≤ 255) := by
  refine ⟨by simp [getband], ?_, ?_, ?_, ?_⟩
  · intro row hrow
    rcases List.mem_map.mp hrow with ⟨r, _, hrw⟩
    subst hrw
    refine ⟨by simp, ?_⟩
    intro cell hcell
    rcases List.mem_map.mp hcell with ⟨c, _, hcw⟩
    subst hcw
    rfl
  · simp [getband, List.take_take]
  · intro r c hr hc
    rw [getband_cell payload r c hr hc,
      getD_take_lt payload _ _ 0 (index_lt_sq r c hr hc)]
  · intro row hrow cell hcell v hv
    rcases List.mem_map.mp hrow with ⟨r, hr, hrw⟩
    subst hrw
    rcases List.mem_map.mp hcell with ⟨c, hc, hcw⟩
    subst hcw
    rw [List.mem_singleton] at hv
    subst hv
    have hidx : r * IMG_DIM + c < (payload.take (IMG_DIM ^ 2)).length := by
      rw [List.length_take]
      exact lt_min (index_lt_sq r c (List.mem_range.mp hr) (List.mem_range.mp hc))
        (lt_of_lt_of_le (index_lt_sq r c (List.mem_range.mp hr) (List.mem_range.mp hc)) hlen)
    exact hval _ (List.take_subset _ _ (getD_mem_of_lt _ _ _ hidx))

/-- Witness for C1 at a concrete in-contract payload. -/
theorem C1_getband_witness :
    (getband sampleP).length = IMG_DIM ∧
      getband sampleP = getband (sampleP.take (IMG_DIM ^ 2)) :=
  ⟨(C1_getband_shape_and_range sampleP sampleP_valid.1 sampleP_valid.2).1,
   (C1_getband_shape_and_range sampleP sampleP_valid.1 sampleP_valid.2).2.2.1⟩

lemma getD4_0 (a b c d x : ℚ) : ([a, b, c, d].getD 0 x) = a := rfl

lemma getD4_1 (a b c d x : ℚ) : ([a, b, c, d].getD 1 x) = b := rfl

lemma getD4_2 (a b c d x : ℚ) : ([a, b, c, d].getD 2 x) = c := rfl

lemma getD4_3 (a b c d x : ℚ) : ([a, b, c, d].getD 3 x) = d := rfl

lemma set4_0 (a b c d v : ℚ) : ([a, b, c, d].set 0 v) = [v, b, c, d] := rfl

lemma set4_1 (a b c d v : ℚ) : ([a, b, c, d].set 1 v) = [a, v, c, d] := rfl

lemma set4_2 (a b c d v : ℚ) : ([a, b, c, d].set 2 v) = [a, b, v, d] := rfl

lemma set4_3 (a b c d v : ℚ) : ([a, b, c, d].set 3 v) = [a, b, c, v] := rfl

lemma replicate_num_classes_zero : List.replicate NUM_CLASSES (0 : ℚ) = [0, 0, 0, 0] := rfl

/-- C2: class_weights_matrix is a pure function of the train-example count
and class count; at class count NUM_CLASSES = 4 it returns a matrix with
one row per training example in which every row equals [1, 4, 4, 6] (in
particular, for 100 training examples the shape is (100, 4)). -/
theorem C2_class_weights_matrix_spec (numTrain : ℕ) :
    (class_weights_matrix numTrain NUM_CLASSES).length = numTrain ∧
    ∀ row ∈ class_weights_matrix numTrain NUM_CLASSES, row = [1, 4, 4, 6] := by
  have h : class_weights_matrix numTrain NUM_CLASSES =
      List.replicate numTrain [1, 4, 4, 6] := by
    simp only [class_weights_matrix, zerosMatrix, addToColumn, List.map_replicate]
    congr 1
    norm_num [replicate_num_classes_zero, getD4_0, getD4_1, getD4_2, getD4_3,
      set4_0, set4_1, set4_2, set4_3]
  rw [h]
  exact ⟨List.length_replicate _ _, fun row hr => List.eq_of_mem_replicate hr⟩

/-- C3: the training driver computes floor(example_count / batch_size) steps
per epoch; with the fixed example counts and batch size 64 this gives 1348
training steps and 168 validation steps. -/
theorem C3_steps_per_epoch_values :
    steps_per_epoch NUM_TRAIN BATCH_SIZE = 1348 ∧
    steps_per_epoch NUM_VAL BATCH_SIZE = 168 := by
  constructor <;>
  · rw [steps_per_epoch]
    norm_num [NUM_TRAIN, NUM_VAL, BATCH_SIZE]

/-- Every cell of a decoded band grid is a singleton channel list. -/
lemma getband_cells_singleton (p : List ℕ) :
    ∀ r ∈ List.range IMG_DIM, ∀ c ∈ List.range IMG_DIM,
      (((getband p).getD r []).getD c []).length = 1 := by
  intro r hr c hc
  rw [getband_cell p r c (List.mem_range.mp hr) (List.mem_range.mp hc)]
  rfl

/-- A decoded band grid has shape (IMG_DIM, IMG_DIM, 1). -/
lemma getband_shape (p : List ℕ) :
    (getband p).length = IMG_DIM ∧
    ∀ row ∈ getband p, row.length = IMG_DIM ∧ ∀ cell ∈ row, cell.length = 1 := by
  refine ⟨by simp [getband], ?_⟩
  intro row hrow
  rcases List.mem_map.mp hrow with ⟨r, _, hrw⟩
  subst hrw
  refine ⟨by simp, ?_⟩
  intro cell hcell
  rcases List.mem_map.mp hcell with ⟨c, _, hcw⟩
  subst hcw
  rfl

/-- Stacking the decoded grids of a payload list gives IMG_DIM x IMG_DIM
cells with one channel entry per payload. -/
lemma concatChannels_of_payloads_shape (ps : List (List ℕ)) :
    (concatChannels (ps.map getband)).length = IMG_DIM ∧
    ∀ row ∈ concatChannels (ps.map getband), row.length = IMG_DIM ∧
      ∀ cell ∈ row, cell.length = ps.length := by
  have hb : ∀ b ∈ ps.map getband, ∀ r ∈ List.range IMG_DIM, ∀ c ∈ List.range IMG_DIM,
      ((b.getD r []).getD c []).length = 1 := by
    intro b hbm
    rcases List.mem_map.mp hbm with ⟨p, _, hpw⟩
    subst hpw
    exact getband_cells_singleton p
  have h := concatChannels_shape (ps.map getband) hb
  simpa [List.length_map] using h

/-- The _parse_ step on the default key list reads exactly the payloads of
bands B2 through B8, in that order. -/
lemma parseExample_keylist (rec : RasterRecord) :
    parseExample rec keylist = some
      { image := concatChannels
          ([rec.B2, rec.B3, rec.B4, rec.B5, rec.B6, rec.B7, rec.B8].map getband)
        label := encodeLabel rec.label } := rfl

/-- C4 as stated is false: the default selected-band list of _parse_ has 7
entries, not 6. -/
theorem C4_counterexample : ¬ keylist.length = 6 := by decide

/-- C4 amended: the default selected-band list comprises 7 of the 11
available band fields (bands B2 through B8), so with the default
configuration the produced image tensor has exactly 7 channels. -/
theorem C4_default_band_count (rec : RasterRecord) (hv : validRecord rec) :
    keylist.length = 7 ∧
    (∀ k ∈ keylist, ∃ kv ∈ features, kv.1 = k ∧ isBandField kv = true) ∧
    (features.filter isBandField).length = 11 ∧
    ∃ ex, parseExample rec keylist = some ex ∧
      ∀ row ∈ ex.image, ∀ cell ∈ row, cell.length = 7 := by
  refine ⟨by decide, by decide, by decide, ?_⟩
  refine ⟨_, parseExample_keylist rec, ?_⟩
  intro row hrow cell hcell
  have h := (concatChannels_of_payloads_shape
    [rec.B2, rec.B3, rec.B4, rec.B5, rec.B6, rec.B7, rec.B8]).2 row hrow
  exact (h.2 cell hcell).trans (by simp)

/-- Witness for C4 amended at a concrete in-contract record. -/
theorem C4_default_band_count_witness : keylist.length = 7 :=
  (C4_default_band_count sampleRecord sampleRecord_valid).1

/-- C5 as stated is false: the record schema of train.py has 11 band
fields (B1 through B11), not 10. -/
theorem C5_counterexample : ¬ (features.filter isBandField).length = 10 := by decide

/-- C5 amended: the fixed record schema consists of exactly 11 band fields
plus 1 label field, and every band key of the schema maps to a payload that
decodes to a (65, 65, 1) single-channel grid. -/
theorem C5_schema (rec : RasterRecord) (hv : validRecord rec) :
    (features.filter isBandField).length = 11 ∧
    (features.filter isLabelField).length = 1 ∧
    ∀ kv ∈ features, isBandField kv = true →
      ∃ p, parseBands rec kv.1 = some p ∧ validPayload p ∧
        (getband p).length = IMG_DIM ∧
        ∀ row ∈ getband p, row.length = IMG_DIM ∧ ∀ cell ∈ row, cell.length = 1 := by
  refine ⟨by decide, by decide, ?_⟩
  intro kv hkv hband
  obtain ⟨hv1, hv2, hv3, hv4, hv5, hv6, hv7, hv8, hv9, hv10, hv11⟩ := hv
  simp only [features, List.mem_cons, List.not_mem_nil, or_false] at hkv
  rcases hkv with rfl | rfl | rfl | rfl | rfl | rfl | rfl | rfl | rfl | rfl | rfl | rfl
  · exact ⟨rec.B1, rfl, hv1, (getband_shape _).1, (getband_shape _).2⟩
  · exact ⟨rec.B2, rfl, hv2, (getband_shape _).1, (getband_shape _).2⟩
  · exact ⟨rec.B3, rfl, hv3, (getband_shape _).1, (getband_shape _).2⟩
  · exact ⟨rec.B4, rfl, hv4, (getband_shape _).1, (getband_shape _).2⟩
  · exact ⟨rec.B5, rfl, hv5, (getband_shape _).1, (getband_shape _).2⟩
  · exact ⟨rec.B6, rfl, hv6, (getband_shape _).1, (getband_shape _).2⟩
  · exact ⟨rec.B7, rfl, hv7, (getband_shape _).1, (getband_shape _).2⟩
  · exact ⟨rec.B8, rfl, hv8, (getband_shape _).1, (getband_shape _).2⟩
  · exact ⟨rec.B9, rfl, hv9, (getband_shape _).1, (getband_shape _).2⟩
  · exact ⟨rec.B10, rfl, hv10, (getband_shape _).1, (getband_shape _).2⟩
  · exact ⟨rec.B11, rfl, hv11, (getband_shape _).1, (getband_shape _).2⟩
  · exact absurd hband (by decide)

/-- Witness for C5 amended at a concrete in-contract record. -/
theorem C5_schema_witness : (features.filter isLabelField).length = 1 :=
  (C5_schema sampleRecord sampleRecord_valid).2.1

/-- C6 as stated is false: a stored label of 5 lies outside [0, 4), yet
the one-hot step silently returns the all-zero vector rather than failing
(tf.one_hot documents out-of-range indices as producing zeros). -/
theorem C6_counterexample : encodeLabel 5 = [0, 0, 0, 0] := by decide

/-- C6 amended: a record whose stored label truncates (int64 to int32) to a
value outside [0, NUM_CLASSES) is silently accepted: the label encoding
step yields the all-zero vector, not a failure. -/
theorem C6_out_of_range_label (label : ℤ)
    (h : toInt32 label < 0 ∨ (NUM_CLASSES : ℤ) ≤ toInt32 label) :
    encodeLabel label = [0, 0, 0, 0] := by
  have h4 : (NUM_CLASSES : ℤ) = 4 := by norm_num [NUM_CLASSES]
  rw [h4] at h
  have he : encodeLabel label =
      [if ((0 : ℕ) : ℤ) = toInt32 label then 1 else 0,
       if ((1 : ℕ) : ℤ) = toInt32 label then 1 else 0,
       if ((2 : ℕ) : ℤ) = toInt32 label then 1 else 0,
       if ((3 : ℕ) : ℤ) = toInt32 label then 1 else 0] := rfl
  rw [he, if_neg (by push_cast; omega), if_neg (by push_cast; omega),
    if_neg (by push_cast; omega), if_neg (by push_cast; omega)]

/-- Witness for C6 amended at the concrete out-of-range label 6. -/
theorem C6_out_of_range_witness : encodeLabel 6 = [0, 0, 0, 0] :=
  C6_out_of_range_label 6 (Or.inr (by decide))

/-- C7: for an ordered key list whose keys all resolve to band payloads,
the selector/stacker output has shape (side, side, len(keys)), and at every
pixel its channel i equals the sole channel of the decoded grid of the
i-th key. -/
theorem C7_band_stacker (rec : RasterRecord) (keys : List String)
    (payloads : List (List ℕ)) (h : keys.mapM (parseBands rec) = some payloads) :
    ∃ ex, parseExample rec keys = some ex ∧
      payloads.length = keys.length ∧
      (∀ i, i < keys.length →
        parseBands rec (keys.getD i defaultKey) = some (payloads.getD i [])) ∧
      ex.image.length = IMG_DIM ∧
      (∀ row ∈ ex.image, row.length = IMG_DIM ∧
        ∀ cell ∈ row, cell.length = keys.length) ∧
      (∀ i r c : ℕ, i < keys.length → r < IMG_DIM → c < IMG_DIM →
        ((ex.image.getD r []).getD c []).getD i 0 =
          (((getband (payloads.getD i [])).getD r []).getD c []).getD 0 0) := by
  rcases mapM_option_spec (parseBands rec) keys payloads h with ⟨hlen, hget⟩
  refine ⟨{ image := concatChannels (payloads.map getband)
            label := encodeLabel rec.label }, ?_, hlen, hget, ?_, ?_, ?_⟩
  · unfold parseExample
    rw [h]
    rfl
  · exact (concatChannels_of_payloads_shape payloads).1
  · intro row hrow
    have hsh := (concatChannels_of_payloads_shape payloads).2 row hrow
    exact ⟨hsh.1, fun cell hc => (hsh.2 cell hc).trans hlen⟩
  · intro i r c hi hr hc
    rw [concatChannels_cell payloads r c hr hc,
      getband_cell (payloads.getD i []) r c hr hc,
      getD_map_lt _ payloads i 0 [] (by omega)]
    rfl

/-- Witness for C7 with keys B2 and B3 on a concrete record. -/
theorem C7_band_stacker_witness :
    (parseExample sampleRecord ["B2", "B3"]).isSome := by
  rcases C7_band_stacker sampleRecord ["B2", "B3"] [sampleP, sampleP] (by rfl) with
    ⟨ex, hex, _⟩
  rw [hex]
  rfl

/-- C8: for every class index i in [0, NUM_CLASSES), the one-hot label
encoder yields a vector of length NUM_CLASSES with a single 1 at position i
and 0 everywhere else. -/
theorem C8_label_encoder (i : ℕ) (h : i < NUM_CLASSES) :
    (one_hot (i : ℤ) NUM_CLASSES).length = NUM_CLASSES ∧
    (one_hot (i : ℤ) NUM_CLASSES).getD i 0 = 1 ∧
    ∀ j, j < NUM_CLASSES → j ≠ i → (one_hot (i : ℤ) NUM_CLASSES).getD j 0 = 0 := by
  refine ⟨by simp [one_hot], ?_, ?_⟩
  · unfold one_hot
    rw [getD_range_map _ _ _ _ h]
    simp
  · intro j hj hne
    unfold one_hot
    rw [getD_range_map _ _ _ _ hj, if_neg]
    exact fun hc => hne (by exact_mod_cast hc)

/-- Witness for C8 at class index 2. -/
theorem C8_label_encoder_witness : (one_hot ((2 : ℕ) : ℤ) NUM_CLASSES).getD 2 0 = 1 :=
  (C8_label_encoder 2 (by decide)).2.1

/-- A second concrete record, agreeing with sampleRecord on the label and
on bands B2 through B8 but differing on B1, B9, B10 and B11. -/
def sampleRecordB : RasterRecord :=
  { sampleRecord with B1 := [], B9 := [7], B10 := [1, 2], B11 := [9] }

/-- C9: the parser output depends only on the label and the selected bands
B2 through B8; two records differing arbitrarily on the unselected bands
B1, B9, B10 and B11 parse identically. -/
theorem C9_unselected_bands_irrelevant (r1 r2 : RasterRecord)
    (hl : r1.label = r2.label) (h2 : r1.B2 = r2.B2) (h3 : r1.B3 = r2.B3)
    (h4 : r1.B4 = r2.B4) (h5 : r1.B5 = r2.B5) (h6 : r1.B6 = r2.B6)
    (h7 : r1.B7 = r2.B7) (h8 : r1.B8 = r2.B8) :
    parseExample r1 keylist = parseExample r2 keylist := by
  rw [parseExample_keylist r1, parseExample_keylist r2, hl, h2, h3, h4, h5, h6, h7, h8]

/-- Witness for C9 on two concrete records differing in all four unselected
bands. -/
theorem C9_unselected_witness :
    parseExample sampleRecord keylist = parseExample sampleRecordB keylist :=
  C9_unselected_bands_irrelevant sampleRecord sampleRecordB
    rfl rfl rfl rfl rfl rfl rfl rfl

/-- The default hyperparameter configuration of train.py lines 36-48
(dropout rates 0.2 and learning rate 0.001 as exact rationals). -/
def defaultArgs : HyperArgs :=
  { model_name := ""
    data_path := "data"
    batch_size := BATCH_SIZE
    epochs := 10
    l1_size := 32
    l2_size := 64
    l3_size := 128
    fc1_size := 128
    fc2_size := 50
    dropout_1 := 1 / 5
    dropout_2 := 1 / 5
    optimizer := "Adam"
    learning_rate := 1 / 1000 }

/-- An optimizer name different from the default, used in witnesses. -/
def sgdName : String := "SGD"

/-- C10: build_regression_model always compiles with the no-argument Adam
optimizer (library-default learning rate); the optimizer name and learning
rate of the supplied configuration have no effect on its output. -/
theorem C10_regression_optimizer_fixed (args : HyperArgs) (opt : String) (lr : ℚ) :
    (build_regression_model args).optimizer = adamDefault ∧
    build_regression_model { args with optimizer := opt, learning_rate := lr } =
      build_regression_model args :=
  ⟨rfl, rfl⟩

/-- Witness for C10 at the default configuration and a changed optimizer
name and learning rate. -/
theorem C10_regression_optimizer_witness :
    (build_regression_model defaultArgs).optimizer = adamDefault ∧
    build_regression_model { defaultArgs with optimizer := sgdName, learning_rate := 1 } =
      build_regression_model defaultArgs :=
  ⟨(C10_regression_optimizer_fixed defaultArgs sgdName 1).1,
   (C10_regression_optimizer_fixed defaultArgs sgdName 1).2⟩

/-- Witness for C2 at 100 training examples: shape (100, 4). -/
theorem C2_class_weights_matrix_witness :
    (class_weights_matrix 100 NUM_CLASSES).length = 100 :=
  (C2_class_weights_matrix_spec 100).1

end Droughtwatch
